import Mathlib

/-!
# MileSplits timing core: shallow embedding and verification

A shallow embedding of the timing and session-persistence core of the
MileSplits cross-country timer (TypeScript/React), together with theorems
checking the natural-language specification against the code.

Embedded source files:
- `src/hooks/useTimer.ts` (clock engine: start/stop/reset/tick/restore),
- `src/components/SplitButton.tsx` + `src/app/page.tsx` (checkpoint recording),
- `src/components/AddRunner.tsx` (participant name validation),
- `src/utils/localStorage.ts` (session codec, schema validation, staleness),
- `src/app/page.tsx` (session-restore-on-load effect).

JavaScript numbers are modelled as `Int` (all values in play are integer
millisecond counts); `null` becomes `none`.  JavaScript truthiness of a
number-or-null value (`state.startTime` etc.) is `truthyNum`: `null` and `0`
are falsy.  The JSON string layer is modelled by a `Json` value tree; the
5 MiB size cap is computed from an explicit JSON printer.
-/

namespace MileSplits

/-! ## Data model (`src/types/index.ts`) -/

/-- `SplitType = "mile1" | "mile2" | "mile3"`. -/
inductive SplitType where
  | mile1
  | mile2
  | mile3
deriving DecidableEq, Repr

/-- The `splits` field of a `Runner`: `{ mile1?: number, mile2?: number, mile3?: number }`. -/
structure Splits where
  mile1 : Option Int
  mile2 : Option Int
  mile3 : Option Int
deriving DecidableEq, Repr

/-- `Runner { id: string, name: string, splits }`. -/
structure Runner where
  id : String
  name : String
  splits : Splits
deriving DecidableEq, Repr

/-- `TimerState { isRunning: boolean, startTime: number | null, elapsedTime: number }`. -/
structure TimerState where
  isRunning : Bool
  startTime : Option Int
  elapsedTime : Int
deriving DecidableEq, Repr

/-- Read a split value by key. -/
def Splits.get (s : Splits) : SplitType → Option Int
  | .mile1 => s.mile1
  | .mile2 => s.mile2
  | .mile3 => s.mile3

/-- Write a split value at a key (the spread `{ ...runner.splits, [splitType]: time }`
in `handleSplitRecord`, `src/app/page.tsx`). -/
def Splits.set (s : Splits) (k : SplitType) (v : Int) : Splits :=
  match k with
  | .mile1 => { s with mile1 := some v }
  | .mile2 => { s with mile2 := some v }
  | .mile3 => { s with mile3 := some v }

/-- JavaScript truthiness of a `number | null` value: `null`, `0` (and `NaN`,
not representable here) are falsy. -/
def truthyNum : Option Int → Bool
  | none => false
  | some n => n != 0

/-! ## Clock engine (`src/hooks/useTimer.ts`) -/

/-- Transient clock-engine errors surfaced via `setError` in `useTimer`. -/
inductive TimerError where
  | debounce
  | clockSkew
deriving DecidableEq, Repr

/-- The state held by the `useTimer` hook: the `timerState` React state plus
the `lastActionRef` debounce timestamp. -/
structure EngineState where
  timer : TimerState
  lastAction : Int
deriving DecidableEq, Repr

/-- The initial hook state: `{ isRunning: false, startTime: null, elapsedTime: 0 }`,
`lastActionRef.current = 0`. -/
def initialEngine : EngineState :=
  { timer := { isRunning := false, startTime := none, elapsedTime := 0 }
    lastAction := 0 }

/-- `startTimer` (`useTimer.ts` lines 38-69).  `test` is the
`NODE_ENV === "test"` flag, which skips the debounce guard entirely.
Returns the new state and the error reported to the caller, if any. -/
def startTimer (test : Bool) (now : Int) (s : EngineState) :
    EngineState × Option TimerError :=
  if ¬test ∧ now - s.lastAction < 200 then
    (s, some .debounce)
  else
    let s := if test then s else { s with lastAction := now }
    if ¬s.timer.isRunning then
      ({ s with timer :=
          { s.timer with
            isRunning := true
            startTime := some (now - s.timer.elapsedTime) } }, none)
    else
      (s, none)

/-- `stopTimer` (`useTimer.ts` lines 72-102). -/
def stopTimer (test : Bool) (now : Int) (s : EngineState) :
    EngineState × Option TimerError :=
  if ¬test ∧ now - s.lastAction < 200 then
    (s, some .debounce)
  else
    let s := if test then s else { s with lastAction := now }
    if s.timer.isRunning then
      ({ s with timer := { s.timer with isRunning := false } }, none)
    else
      (s, none)

/-- `resetTimer` (`useTimer.ts` lines 105-117): unconditionally back to the
initial clock value.  The `lastActionRef` is not touched. -/
def resetTimer (s : EngineState) : EngineState :=
  { s with timer := { isRunning := false, startTime := none, elapsedTime := 0 } }

/-- One firing of the `setInterval` tick callback (`useTimer.ts` lines
166-202).  The interval only exists while `timerState.isRunning &&
timerState.startTime` (JS truthiness), so the tick is a no-op otherwise.
A negative computed elapsed reports an error and leaves the state alone. -/
def tick (now : Int) (s : EngineState) : EngineState × Option TimerError :=
  if s.timer.isRunning ∧ truthyNum s.timer.startTime then
    match s.timer.startTime with
    | some st =>
        let elapsed := now - st
        if elapsed < 0 then
          (s, some .clockSkew)
        else
          ({ s with timer := { s.timer with elapsedTime := elapsed } }, none)
    | none => (s, none)
  else
    (s, none)

/-- `restoreTimerState` (`useTimer.ts` lines 120-140): if the saved state
was running *and* its `startTime` is truthy, re-anchor `startTime` at
`now - elapsedTime`; otherwise install the saved state verbatim. -/
def restoreTimerState (now : Int) (state : TimerState) : TimerState :=
  if state.isRunning ∧ truthyNum state.startTime then
    { isRunning := true
      startTime := some (now - state.elapsedTime)
      elapsedTime := state.elapsedTime }
  else
    state

/-! ## Checkpoint recording (`src/components/SplitButton.tsx`, `src/app/page.tsx`) -/

/-- The three rejection kinds of `handleSplitRecord` in `SplitButton.tsx`:
"Timer must be running to record splits", "Split already recorded",
"Invalid time - please wait for timer to start". -/
inductive SplitError where
  | timerNotRunning
  | alreadyRecorded
  | invalidElapsedTime
deriving DecidableEq, Repr

/-- Look up a runner by id in the roster. -/
def findRunner (rs : List Runner) (rid : String) : Option Runner :=
  rs.find? (fun r => r.id == rid)

/-- `handleSplitRecord` in `src/app/page.tsx` lines 73-95: map over the
roster, spreading `[splitType]: time` into the matching runner's splits. -/
def handleSplitRecord (rs : List Runner) (rid : String) (k : SplitType)
    (time : Int) : List Runner :=
  rs.map (fun r =>
    if r.id == rid then { r with splits := r.splits.set k time } else r)

/-- `handleSplitRecord` in `SplitButton.tsx` lines 50-85 combined with the
roster update it triggers.  The component receives `splitTime` as the prop
`runner.splits[splitType]` of its runner; the guards run in source order:
timer running, not already recorded, elapsed strictly positive. -/
def recordCheckpoint (running : Bool) (elapsed : Int) (rs : List Runner)
    (rid : String) (k : SplitType) : List Runner × Option SplitError :=
  let splitTime := (findRunner rs rid).bind (fun r => r.splits.get k)
  if running = false then
    (rs, some .timerNotRunning)
  else if splitTime.isSome then
    (rs, some .alreadyRecorded)
  else if elapsed ≤ 0 then
    (rs, some .invalidElapsedTime)
  else
    (handleSplitRecord rs rid k elapsed, none)

/-! ## Participant name validation (`src/components/AddRunner.tsx`) -/

/-- The validation error messages of `validateRunnerName`. -/
inductive NameError where
  | emptyName
  | tooShort
  | tooLong
  | invalidChars
  | duplicateName
deriving DecidableEq, Repr

/-- The whitespace class of JavaScript (`\s` in regexes, `String.prototype.trim`). -/
def jsWhitespace (c : Char) : Bool :=
  c = ' ' ∨ c = Char.ofNat 0x09 ∨ c = Char.ofNat 0x0a ∨ c = Char.ofNat 0x0b ∨
  c = Char.ofNat 0x0c ∨ c = Char.ofNat 0x0d ∨ c = Char.ofNat 0xa0 ∨
  c = Char.ofNat 0x1680 ∨ (Char.ofNat 0x2000 ≤ c ∧ c ≤ Char.ofNat 0x200a) ∨
  c = Char.ofNat 0x2028 ∨ c = Char.ofNat 0x2029 ∨ c = Char.ofNat 0x202f ∨
  c = Char.ofNat 0x205f ∨ c = Char.ofNat 0x3000 ∨ c = Char.ofNat 0xfeff

/-- `name.trim()`: strip leading and trailing JavaScript whitespace. -/
def jsTrim (s : String) : String :=
  ⟨((s.toList.dropWhile jsWhitespace).reverse.dropWhile jsWhitespace).reverse⟩

/-- One character of the `AddRunner.tsx` name regex `^[a-zA-Z0-9\s\-'\.]+$`:
ASCII letter, ASCII digit, whitespace, hyphen, apostrophe or period. -/
def allowedNameChar (c : Char) : Bool :=
  (c ≥ 'a' ∧ c ≤ 'z') ∨ (c ≥ 'A' ∧ c ≤ 'Z') ∨ (c ≥ '0' ∧ c ≤ '9') ∨
  jsWhitespace c ∨ c = '-' ∨ c = Char.ofNat 39 ∨ c = '.'

/-- `name.toLowerCase()` on the ASCII range (the only range that matters
after the regex check; roster names fed back into the comparison come from
this validator). -/
def jsLower (s : String) : String :=
  ⟨s.toList.map (fun c =>
    if c ≥ 'A' ∧ c ≤ 'Z' then Char.ofNat (c.toNat + 32) else c)⟩

/-- `validateRunnerName` (`AddRunner.tsx` lines 20-48), checks in source
order: empty after trim, length < 2, length > 50, regex, case-insensitive
duplicate against the current roster. -/
def validateRunnerName (runners : List Runner) (name : String) :
    Option NameError :=
  let trimmedName := jsTrim name
  if trimmedName = "" then some .emptyName
  else if trimmedName.length < 2 then some .tooShort
  else if trimmedName.length > 50 then some .tooLong
  else if ¬trimmedName.toList.all allowedNameChar then some .invalidChars
  else if runners.any (fun r => jsLower r.name = jsLower trimmedName) then
    some .duplicateName
  else none

/-- `handleSubmit` (`AddRunner.tsx` lines 50-78) composed with the parent's
`handleAddRunner` append (`page.tsx` lines 38-40): validate, and on success
append `{ id: freshId, name: name.trim(), splits: {} }`.  The generated id
(`Date.now()` + random suffix) is passed in as `freshId`. -/
def submitRunner (runners : List Runner) (name : String) (freshId : String) :
    List Runner × Option NameError :=
  match validateRunnerName runners name with
  | some e => (runners, some e)
  | none =>
      (runners ++ [{ id := freshId, name := jsTrim name
                     splits := { mile1 := none, mile2 := none, mile3 := none } }],
       none)

/-! ## Session codec and store (`src/utils/localStorage.ts`)

The stored value is modelled at the level of parsed JSON value trees
(`JSON.parse ∘ JSON.stringify` is the identity on such trees); the string
layer appears only in the explicit printer used for the 5 MiB size check. -/

/-- A parsed JSON value. -/
inductive Json where
  | null
  | bool (b : Bool)
  | num (n : Int)
  | str (s : String)
  | arr (elems : List Json)
  | obj (fields : List (String × Json))
deriving Repr

/-- JavaScript property access `j[k]` on a parsed value: defined on objects
(parsed objects have unique keys), `undefined` (`none`) otherwise. -/
def Json.getField : Json → String → Option Json
  | .obj fs, k => (fs.find? (fun p => p.1 == k)).map (fun p => p.2)
  | _, _ => none

/-- `typeof j === "number"`. -/
def Json.isNum : Json → Bool
  | .num _ => true
  | _ => false

/-- A hexadecimal digit, lower case. -/
def hexDigit (n : Nat) : Char :=
  if n < 10 then Char.ofNat (48 + n) else Char.ofNat (87 + n)

/-- Four-digit hexadecimal rendering for `\uXXXX` escapes. -/
def hex4 (n : Nat) : String :=
  ⟨[hexDigit (n / 4096 % 16), hexDigit (n / 256 % 16),
    hexDigit (n / 16 % 16), hexDigit (n % 16)]⟩

/-- `JSON.stringify` escaping of one string character. -/
def escapeChar (c : Char) : String :=
  if c = '"' then "\\\""
  else if c = '\\' then "\\\\"
  else if c.toNat < 0x20 then
    match c.toNat with
    | 8 => "\\b"
    | 9 => "\\t"
    | 10 => "\\n"
    | 12 => "\\f"
    | 13 => "\\r"
    | n => "\\u" ++ hex4 n
  else String.singleton c

/-- `JSON.stringify` rendering of a string, quotes included. -/
def quoteString (s : String) : String :=
  "\"" ++ String.join (s.toList.map escapeChar) ++ "\""

mutual

/-- `JSON.stringify` on a parsed value (no spacing argument). -/
def Json.stringify : Json → String
  | .null => "null"
  | .bool true => "true"
  | .bool false => "false"
  | .num n => toString n
  | .str s => quoteString s
  | .arr xs => "[" ++ Json.stringifyElems xs ++ "]"
  | .obj fs => "\x7b" ++ Json.stringifyFields fs ++ "\x7d"

/-- Comma-separated rendering of array elements. -/
def Json.stringifyElems : List Json → String
  | [] => ""
  | [x] => Json.stringify x
  | x :: xs => Json.stringify x ++ "," ++ Json.stringifyElems xs

/-- Comma-separated rendering of object fields. -/
def Json.stringifyFields : List (String × Json) → String
  | [] => ""
  | [p] => quoteString p.1 ++ ":" ++ Json.stringify p.2
  | p :: ps => quoteString p.1 ++ ":" ++ Json.stringify p.2 ++ "," ++
      Json.stringifyFields ps

end

/-- JSON form of a `splits` object: `JSON.stringify` drops keys whose value
is `undefined`, so only present splits appear, in declaration order. -/
def encodeSplits (s : Splits) : Json :=
  .obj ((s.mile1.map (fun n => ("mile1", Json.num n))).toList ++
        (s.mile2.map (fun n => ("mile2", Json.num n))).toList ++
        (s.mile3.map (fun n => ("mile3", Json.num n))).toList)

/-- JSON form of a `Runner`. -/
def encodeRunner (r : Runner) : Json :=
  .obj [("id", .str r.id), ("name", .str r.name), ("splits", encodeSplits r.splits)]

/-- JSON form of the `timerState` field of a `SessionState`. -/
def encodeTimer (t : TimerState) : Json :=
  .obj [("isRunning", .bool t.isRunning),
        ("elapsedTime", .num t.elapsedTime),
        ("startTime", match t.startTime with
                      | some n => .num n
                      | none => .null)]

/-- The session record written by `saveSessionState` (`localStorage.ts`
lines 37-45): `{ runners, timerState, lastSaved }`. -/
def encodeSession (runners : List Runner) (timerState : TimerState)
    (now : Int) : Json :=
  .obj [("runners", .arr (runners.map encodeRunner)),
        ("timerState", encodeTimer timerState),
        ("lastSaved", .num now)]

/-- `saveSessionState` (`localStorage.ts` lines 21-61): serialize and reject
when the serialized length exceeds `5 * 1024 * 1024`.  The dynamic-type
guards (`Array.isArray(runners)`, `typeof timerState === "object"`) always
hold in the typed embedding.  Returns the stored value, `none` on failure. -/
def saveSessionState (runners : List Runner) (timerState : TimerState)
    (now : Int) : Option Json :=
  let sessionState := encodeSession runners timerState now
  let serialized := sessionState.stringify
  if serialized.length > 5 * 1024 * 1024 then none else some sessionState

/-- `isValidRunner`'s splits loop (`localStorage.ts` lines 156-172):
`splits` must be a truthy object; every enumerable key must be one of
`mile1/mile2/mile3` with a numeric value.  An empty JSON array also passes
the loop (its `for…in` enumerates nothing); a non-empty array fails on its
index keys. -/
def validSplits : Json → Bool
  | .obj fs => fs.all (fun p =>
      (p.1 = "mile1" ∨ p.1 = "mile2" ∨ p.1 = "mile3") ∧ p.2.isNum)
  | .arr [] => true
  | _ => false

/-- `typeof v === "string"` for a property read (`none` is `undefined`). -/
def isStringVal : Option Json → Bool
  | some (.str _) => true
  | _ => false

/-- `typeof v === "number"` for a property read. -/
def isNumberVal : Option Json → Bool
  | some (.num _) => true
  | _ => false

/-- `typeof v === "boolean"` for a property read. -/
def isBoolVal : Option Json → Bool
  | some (.bool _) => true
  | _ => false

/-- `v === null || typeof v === "number"` for a property read (the
`startTime` check; an absent field is `undefined`, which fails). -/
def isNullOrNumberVal : Option Json → Bool
  | some .null => true
  | some (.num _) => true
  | _ => false

/-- The `runner.splits` check: `!splits || typeof splits !== "object"`
rejects absent/falsy or non-object values, then the key loop runs. -/
def splitsVal : Option Json → Bool
  | some s => validSplits s
  | none => false

/-- `isValidRunner` (`localStorage.ts` lines 147-175): truthy object with
string `id`, string `name` and a valid `splits` object.  (No check that
`name` is non-empty.) -/
def isValidRunner (runner : Json) : Bool :=
  match runner with
  | .obj _ =>
      isStringVal (runner.getField "id") &&
      isStringVal (runner.getField "name") &&
      splitsVal (runner.getField "splits")
  | _ => false

/-- The `state.runners` check: `Array.isArray` plus the per-runner loop. -/
def runnersVal : Option Json → Bool
  | some (.arr rs) => rs.all isValidRunner
  | _ => false

/-- The `state.timerState` check: truthy object with boolean `isRunning`,
numeric `elapsedTime` and null-or-numeric `startTime`. -/
def timerStateVal : Option Json → Bool
  | some ts =>
      isBoolVal (ts.getField "isRunning") &&
      isNumberVal (ts.getField "elapsedTime") &&
      isNullOrNumberVal (ts.getField "startTime")
  | none => false

/-- `isValidSessionState` (`localStorage.ts` lines 105-142): truthy object
with a `runners` array of valid runners, a valid `timerState` object, and a
numeric `lastSaved`. -/
def isValidSessionState (state : Json) : Bool :=
  match state with
  | .obj _ =>
      runnersVal (state.getField "runners") &&
      timerStateVal (state.getField "timerState") &&
      isNumberVal (state.getField "lastSaved")
  | _ => false

/-- The typed session record (`SessionState` in `localStorage.ts`). -/
structure SessionState where
  runners : List Runner
  timerState : TimerState
  lastSaved : Int
deriving DecidableEq, Repr

/-- Typed reading of a `splits` object (total: absent or non-numeric keys
read as `undefined`; only called on validated inputs). -/
def decodeSplits (s : Json) : Splits :=
  let numField := fun k => match s.getField k with
                           | some (.num n) => some n
                           | _ => none
  { mile1 := numField "mile1", mile2 := numField "mile2", mile3 := numField "mile3" }

/-- Typed reading of a runner object. -/
def decodeRunner (j : Json) : Option Runner :=
  match j.getField "id", j.getField "name", j.getField "splits" with
  | some (.str i), some (.str n), some s =>
      some { id := i, name := n, splits := decodeSplits s }
  | _, _, _ => none

/-- Typed reading of a `timerState` object. -/
def decodeTimer (j : Json) : Option TimerState :=
  match j.getField "isRunning", j.getField "elapsedTime", j.getField "startTime" with
  | some (.bool b), some (.num e), some st =>
      match st with
      | .null => some { isRunning := b, startTime := none, elapsedTime := e }
      | .num n => some { isRunning := b, startTime := some n, elapsedTime := e }
      | _ => none
  | _, _, _ => none

/-- Typed reading of a parsed runner array, element by element. -/
def decodeRunners : List Json → Option (List Runner)
  | [] => some []
  | r :: rs => do
      let x ← decodeRunner r
      let xs ← decodeRunners rs
      some (x :: xs)

/-- Typed reading of a whole session record. -/
def decodeSession (j : Json) : Option SessionState :=
  match j.getField "runners", j.getField "timerState", j.getField "lastSaved" with
  | some (.arr rs), some ts, some (.num ls) => do
      let runners ← decodeRunners rs
      let t ← decodeTimer ts
      some { runners := runners, timerState := t, lastSaved := ls }
  | _, _, _ => none

/-- `loadSessionState` (`localStorage.ts` lines 67-89) applied to an
already-parsed stored value: validate the structure and return the record,
`null` otherwise.  (The source returns the parsed value under a type cast;
here the cast is the typed reading `decodeSession`.) -/
def loadSessionState (j : Json) : Option SessionState :=
  if isValidSessionState j then decodeSession j else none

/-- `loadSessionState` at store level: the stored slot may be absent; an
invalid stored value is actively cleared (`clearSessionState`).  Returns
the loaded record and the store contents afterwards. -/
def storeLoad (stored : Option Json) : Option SessionState × Option Json :=
  match stored with
  | none => (none, none)
  | some j => if isValidSessionState j then (decodeSession j, some j) else (none, none)

/-- `isSessionRecent` (`localStorage.ts` lines 181-185), with `Date.now()`
passed in as `now`. -/
def isSessionRecent (sessionState : SessionState) (now : Int) : Bool :=
  now - sessionState.lastSaved ≤ 24 * 60 * 60 * 1000

/-- The session-restore effect of `HomeContent` (`page.tsx` lines 117-145)
on the no-roster-parameter path: load; if present and recent, restore; if
present and stale, clear the store.  Returns the restored record (if any)
and the store contents afterwards. -/
def sessionRestoreEffect (stored : Option Json) (now : Int) :
    Option SessionState × Option Json :=
  let (savedSession, store1) := storeLoad stored
  match savedSession with
  | some s => if isSessionRecent s now then (some s, store1) else (none, none)
  | none => (none, store1)

/-! ## Clock invariant -/

/-- The RaceClock invariant of the spec: `running == true ⇒ startEpochMs != null`. -/
def ClockInv (t : TimerState) : Prop :=
  t.isRunning = true → t.startTime ≠ none

/-! # Theorems -/

/-- C1 (counterexample): the schema accepts a snapshot with `running = true`
and `startEpochMs = null`; `restoreTimerState` installs it verbatim instead
of re-anchoring `startEpochMs` at `now - elapsedMs`, so the claimed equation
for every `running = true` snapshot fails. -/
theorem restore_running_counterexample :
    (TimerState.mk true none 600000).isRunning = true ∧
    restoreTimerState 1000000 (TimerState.mk true none 600000) ≠
      TimerState.mk true (some (1000000 - 600000)) 600000 ∧
    restoreTimerState 1000000 (TimerState.mk true none 600000) =
      TimerState.mk true none 600000 := by
  decide

/-- C1 (amended): restoring a snapshot with `running = true` whose
`startEpochMs` is truthy (non-null and non-zero) keeps `elapsedMs`, sets
`startEpochMs = now - elapsedMs` and stays `Running`; every other snapshot
— one with `running = false`, or with `running = true` but a null or zero
`startEpochMs` — is restored verbatim; in particular a snapshot with
`running = false` restores `elapsedMs` exactly and the clock stays
`Stopped`. -/
theorem restore_spec (now : Int) (state : TimerState) :
    (state.isRunning = true → truthyNum state.startTime = true →
      restoreTimerState now state =
        TimerState.mk true (some (now - state.elapsedTime)) state.elapsedTime) ∧
    (¬(state.isRunning = true ∧ truthyNum state.startTime = true) →
      restoreTimerState now state = state) ∧
    (state.isRunning = false → restoreTimerState now state = state) := by
  refine ⟨?_, ?_, ?_⟩
  · intro h1 h2
    simp [restoreTimerState, h1, h2]
  · intro h
    simp only [restoreTimerState]
    rw [if_neg h]
  · intro h1
    simp [restoreTimerState, h1]

/-- Closed witness for `restore_spec`: one truthy running snapshot, one
running snapshot with zero start epoch (restored verbatim), one stopped
snapshot (restored verbatim). -/
theorem restore_spec_witness :
    restoreTimerState 1000000 (TimerState.mk true (some 5) 600000) =
      TimerState.mk true (some (1000000 - 600000)) 600000 ∧
    restoreTimerState 1000000 (TimerState.mk true (some 0) 600000) =
      TimerState.mk true (some 0) 600000 ∧
    restoreTimerState 1000000 (TimerState.mk false (some 5) 600000) =
      TimerState.mk false (some 5) 600000 :=
  ⟨(restore_spec 1000000 (TimerState.mk true (some 5) 600000)).1 rfl rfl,
   (restore_spec 1000000 (TimerState.mk true (some 0) 600000)).2.1 (by decide),
   (restore_spec 1000000 (TimerState.mk false (some 5) 600000)).2.2 rfl⟩

/-- C3 (counterexample): the deserializer's schema accepts a session whose
clock says `running = true` with `startEpochMs = null` (it checks the two
fields independently), and `RestoreFromSnapshot` then installs exactly that
state, so the invariant `running ⇒ startEpochMs ≠ null` is not preserved by
restore-from-any-accepted-snapshot. -/
theorem clock_invariant_counterexample :
    isValidSessionState (encodeSession [] (TimerState.mk true none 0) 0) = true ∧
    loadSessionState (encodeSession [] (TimerState.mk true none 0) 0) =
      some (SessionState.mk [] (TimerState.mk true none 0) 0) ∧
    (restoreTimerState 1000 (TimerState.mk true none 0)).isRunning = true ∧
    (restoreTimerState 1000 (TimerState.mk true none 0)).startTime = none := by
  decide

/-- The timer component of a `startTimer` result: unchanged, or switched to
running with a non-null start epoch. -/
theorem startTimer_timer_shape (test : Bool) (now : Int) (s : EngineState) :
    (startTimer test now s).1.timer = s.timer ∨
    (startTimer test now s).1.timer =
      { s.timer with isRunning := true
                     startTime := some (now - s.timer.elapsedTime) } := by
  simp only [startTimer]
  split_ifs <;> simp

/-- The timer component of a `stopTimer` result: unchanged, or switched to
stopped with the other fields untouched. -/
theorem stopTimer_timer_shape (test : Bool) (now : Int) (s : EngineState) :
    (stopTimer test now s).1.timer = s.timer ∨
    (stopTimer test now s).1.timer = { s.timer with isRunning := false } := by
  simp only [stopTimer]
  split_ifs <;> simp

/-- The timer component of a `tick` result: unchanged, or the elapsed field
alone recomputed. -/
theorem tick_timer_shape (now : Int) (s : EngineState) :
    (tick now s).1.timer = s.timer ∨
    ∃ st, s.timer.startTime = some st ∧
      (tick now s).1.timer = { s.timer with elapsedTime := now - st } := by
  simp only [tick]
  split_ifs with h
  · match hst : s.timer.startTime with
    | some st =>
        simp only [hst]
        split_ifs <;> simp [hst]
    | none => simp
  · simp

/-- C3 (amended): the invariant `running = true ⇒ startEpochMs ≠ null`
holds initially and is preserved by Start, Stop, Tick and Reset, and by
RestoreFromSnapshot applied to any snapshot that itself satisfies the
invariant; the deserializer's schema validation alone does not guarantee
it (it accepts `running = true` with `startEpochMs = null`). -/
theorem clock_invariant_preserved :
    ClockInv initialEngine.timer ∧
    (∀ (test : Bool) (now : Int) (s : EngineState), ClockInv s.timer →
      ClockInv (startTimer test now s).1.timer ∧
      ClockInv (stopTimer test now s).1.timer ∧
      ClockInv (tick now s).1.timer) ∧
    (∀ s : EngineState, ClockInv (resetTimer s).timer) ∧
    (∀ (now : Int) (st : TimerState), ClockInv st →
      ClockInv (restoreTimerState now st)) := by
  refine ⟨fun h => absurd h (by decide), ?_, ?_, ?_⟩
  · intro test now s hs
    refine ⟨?_, ?_, ?_⟩
    · rcases startTimer_timer_shape test now s with h | h <;> rw [h]
      · exact hs
      · intro _
        simp
    · rcases stopTimer_timer_shape test now s with h | h <;> rw [h]
      · exact hs
      · intro hr
        simp at hr
    · rcases tick_timer_shape now s with h | ⟨st, hst, h⟩ <;> rw [h]
      · exact hs
      · intro hr
        simp [hst]
  · intro s
    intro h
    simp [resetTimer] at h
  · intro now st hst
    unfold restoreTimerState
    split
    · intro _
      simp
    · exact hst

/-- Closed witness for `clock_invariant_preserved`. -/
theorem clock_invariant_preserved_witness :
    ClockInv (startTimer false 1000 initialEngine).1.timer ∧
    ClockInv (restoreTimerState 1000 (TimerState.mk false none 5)) :=
  ⟨(clock_invariant_preserved.2.1 false 1000 initialEngine
      (fun h => absurd h (by decide))).1,
   clock_invariant_preserved.2.2.2 1000 (TimerState.mk false none 5)
      (fun h => absurd h (by decide))⟩

/-- C8: outside the test harness, a Start from `Stopped` arriving at least
200ms after the last action succeeds (no error, clock `Running`), and a
second Start within 200ms of it is rejected with the debounce error and not
applied; likewise any Start or Stop within 200ms of the previous recorded
action is rejected unchanged. -/
theorem start_debounce (s : EngineState) (t0 t1 : Int)
    (hstop : s.timer.isRunning = false)
    (hgap : 200 ≤ t0 - s.lastAction)
    (hfast : t1 - t0 < 200) :
    (startTimer false t0 s).2 = none ∧
    (startTimer false t0 s).1.timer.isRunning = true ∧
    startTimer false t1 (startTimer false t0 s).1 =
      ((startTimer false t0 s).1, some .debounce) ∧
    stopTimer false t1 (startTimer false t0 s).1 =
      ((startTimer false t0 s).1, some .debounce) ∧
    (∀ (s2 : EngineState) (t : Int), t - s2.lastAction < 200 →
      startTimer false t s2 = (s2, some .debounce) ∧
      stopTimer false t s2 = (s2, some .debounce)) := by
  have hreject : ∀ (s2 : EngineState) (t : Int), t - s2.lastAction < 200 →
      startTimer false t s2 = (s2, some .debounce) ∧
      stopTimer false t s2 = (s2, some .debounce) := by
    intro s2 t h
    constructor
    · simp only [startTimer]
      rw [if_pos ⟨by decide, h⟩]
    · simp only [stopTimer]
      rw [if_pos ⟨by decide, h⟩]
  have hfirst : startTimer false t0 s =
      ({ timer := { s.timer with
                    isRunning := true
                    startTime := some (t0 - s.timer.elapsedTime) }
         lastAction := t0 }, none) := by
    simp only [startTimer]
    rw [if_neg (by push_neg; intro _; omega)]
    simp [hstop]
  rw [hfirst]
  exact ⟨rfl, rfl, (hreject _ t1 hfast).1, (hreject _ t1 hfast).2, hreject⟩

/-- Closed witness for `start_debounce`. -/
theorem start_debounce_witness :
    (startTimer false 10000 initialEngine).2 = none ∧
    (startTimer false 10000 initialEngine).1.timer.isRunning = true ∧
    startTimer false 10100 (startTimer false 10000 initialEngine).1 =
      ((startTimer false 10000 initialEngine).1, some .debounce) ∧
    stopTimer false 10100 (startTimer false 10000 initialEngine).1 =
      ((startTimer false 10000 initialEngine).1, some .debounce) ∧
    (∀ (s2 : EngineState) (t : Int), t - s2.lastAction < 200 →
      startTimer false t s2 = (s2, some .debounce) ∧
      stopTimer false t s2 = (s2, some .debounce)) :=
  start_debounce initialEngine 10000 10100 (by decide) (by decide) (by decide)

/-- C10: a Start while already `Running` (outside the test harness and the
debounce window) leaves the clock fields untouched and reports no error,
but still records `now` as the last action, so a Stop within 200ms of it
gets debounce-rejected. -/
theorem start_noop_while_running (s : EngineState) (now now2 : Int)
    (hrun : s.timer.isRunning = true)
    (hgap : 200 ≤ now - s.lastAction)
    (hfast : now2 - now < 200) :
    startTimer false now s = ({ s with lastAction := now }, none) ∧
    ({ s with lastAction := now } : EngineState).timer = s.timer ∧
    stopTimer false now2 { s with lastAction := now } =
      ({ s with lastAction := now }, some .debounce) := by
  refine ⟨?_, rfl, ?_⟩
  · simp only [startTimer]
    rw [if_neg (by push_neg; intro _; omega)]
    simp [hrun]
  · simp only [stopTimer]
    rw [if_pos ⟨by decide, hfast⟩]

/-- Closed witness for `start_noop_while_running`. -/
theorem start_noop_while_running_witness :
    startTimer false 1000 (EngineState.mk (TimerState.mk true (some 5) 7) 0) =
      ({ EngineState.mk (TimerState.mk true (some 5) 7) 0 with lastAction := 1000 }, none) ∧
    ({ EngineState.mk (TimerState.mk true (some 5) 7) 0 with lastAction := 1000 }
        : EngineState).timer = TimerState.mk true (some 5) 7 ∧
    stopTimer false 1100 { EngineState.mk (TimerState.mk true (some 5) 7) 0 with lastAction := 1000 } =
      ({ EngineState.mk (TimerState.mk true (some 5) 7) 0 with lastAction := 1000 },
       some .debounce) :=
  start_noop_while_running (EngineState.mk (TimerState.mk true (some 5) 7) 0)
    1000 1100 (by decide) (by decide) (by decide)

/-! ## Checkpoint recording theorems -/

/-- Setting a split key makes that key read back the stored value. -/
theorem Splits.get_set (s : Splits) (k : SplitType) (v : Int) :
    (s.set k v).get k = some v := by
  cases k <;> rfl

/-- `handleSplitRecord` leaves runner ids alone, so the lookup of `rid`
afterwards returns the looked-up runner with the split applied. -/
theorem findRunner_handleSplitRecord (rs : List Runner) (rid : String)
    (k : SplitType) (t : Int) :
    findRunner (handleSplitRecord rs rid k t) rid =
      (findRunner rs rid).map (fun r => { r with splits := r.splits.set k t }) := by
  induction rs with
  | nil => rfl
  | cons r rs ih =>
      simp only [handleSplitRecord, List.map_cons, findRunner, List.find?] at *
      by_cases h : r.id == rid
      · simp [h]
      · simp only [h, Bool.false_eq_true, if_false]
        simpa [h] using ih

/-- C2 (counterexample): a successful recording followed by a later attempt
for the same (participant, key) pair made while the clock is stopped fails
with `TimerNotRunning`, not `AlreadyRecorded`. -/
theorem recordCheckpoint_counterexample :
    (recordCheckpoint true 5
        [Runner.mk "r1" "A" (Splits.mk none none none)] "r1" .mile1).2 = none ∧
    (recordCheckpoint false 7
        (recordCheckpoint true 5
          [Runner.mk "r1" "A" (Splits.mk none none none)] "r1" .mile1).1
        "r1" .mile1).2 = some .timerNotRunning ∧
    some SplitError.timerNotRunning ≠ some SplitError.alreadyRecorded := by
  decide

/-- C2 (amended): recording succeeds iff the clock is running, the key has
no existing value for the participant and the elapsed time is strictly
positive; each sole violation yields its distinct error kind; every failure
leaves the roster unchanged; after a success for a present participant the
key holds the recorded value and every later attempt for the same pair
fails — with `AlreadyRecorded` while the clock is running, and with
`TimerNotRunning` while it is stopped. -/
theorem recordCheckpoint_spec (running : Bool) (elapsed : Int)
    (rs : List Runner) (rid : String) (k : SplitType) :
    ((recordCheckpoint running elapsed rs rid k).2 = none ↔
      running = true ∧
      (findRunner rs rid).bind (fun r => r.splits.get k) = none ∧
      0 < elapsed) ∧
    (running = false →
      recordCheckpoint running elapsed rs rid k = (rs, some .timerNotRunning)) ∧
    (running = true →
      ((findRunner rs rid).bind (fun r => r.splits.get k)).isSome = true →
      recordCheckpoint running elapsed rs rid k = (rs, some .alreadyRecorded)) ∧
    (running = true →
      (findRunner rs rid).bind (fun r => r.splits.get k) = none → elapsed ≤ 0 →
      recordCheckpoint running elapsed rs rid k = (rs, some .invalidElapsedTime)) ∧
    ((recordCheckpoint running elapsed rs rid k).2 ≠ none →
      (recordCheckpoint running elapsed rs rid k).1 = rs) ∧
    ((recordCheckpoint running elapsed rs rid k).2 = none →
      ((findRunner rs rid).isSome = true →
        (findRunner (recordCheckpoint running elapsed rs rid k).1 rid).bind
          (fun r => r.splits.get k) = some elapsed) ∧
      ∀ e2 : Int,
        ((findRunner rs rid).isSome = true →
          (recordCheckpoint true e2
            (recordCheckpoint running elapsed rs rid k).1 rid k).2 =
              some .alreadyRecorded) ∧
        (recordCheckpoint false e2
          (recordCheckpoint running elapsed rs rid k).1 rid k).2 =
            some .timerNotRunning) := by
  cases running with
  | false =>
      have hr : recordCheckpoint false elapsed rs rid k =
          (rs, some .timerNotRunning) := by
        simp [recordCheckpoint]
      rw [hr]
      simp
  | true =>
      by_cases hp : ((findRunner rs rid).bind (fun r => r.splits.get k)).isSome = true
      · have hr : recordCheckpoint true elapsed rs rid k =
            (rs, some .alreadyRecorded) := by
          simp only [recordCheckpoint]
          rw [if_neg (by simp), if_pos hp]
        rw [hr]
        simp only [Option.isSome_iff_ne_none] at hp
        simp [hp]
      · have hpn : (findRunner rs rid).bind (fun r => r.splits.get k) = none := by
          simpa [Option.isSome_iff_ne_none] using hp
        by_cases he : elapsed ≤ 0
        · have hr : recordCheckpoint true elapsed rs rid k =
              (rs, some .invalidElapsedTime) := by
            simp only [recordCheckpoint]
            rw [if_neg (by simp), if_neg hp, if_pos he]
          rw [hr]
          refine ⟨iff_of_false (by simp) (by rintro ⟨-, -, h3⟩; omega),
            by simp, ?_, ?_, by intro _; rfl, by simp⟩
          · intro _ hs
            rw [hpn] at hs
            simp at hs
          · intro _ _ _
            rfl
        · have hr : recordCheckpoint true elapsed rs rid k =
              (handleSplitRecord rs rid k elapsed, none) := by
            simp only [recordCheckpoint]
            rw [if_neg (by simp), if_neg hp, if_neg he]
          rw [hr]
          have hafter : (findRunner rs rid).isSome = true →
              (findRunner (handleSplitRecord rs rid k elapsed) rid).bind
                (fun r => r.splits.get k) = some elapsed := by
            intro hfind
            obtain ⟨r, hfr⟩ := Option.isSome_iff_exists.mp hfind
            rw [findRunner_handleSplitRecord, hfr]
            simp [Splits.get_set]
          refine ⟨iff_of_true rfl ⟨rfl, hpn, by omega⟩, by simp,
            ?_, by intro _ _ h3; omega, by simp, ?_⟩
          · intro _ hs
            rw [hpn] at hs
            simp at hs
          · intro _
            refine ⟨hafter, ?_⟩
            intro e2
            constructor
            · intro hfind
              simp only [recordCheckpoint]
              rw [if_neg (by simp), if_pos (by simp [hafter hfind])]
            · simp [recordCheckpoint]

/-- Closed witness for `recordCheckpoint_spec`. -/
theorem recordCheckpoint_spec_witness :
    recordCheckpoint false 7 [Runner.mk "r1" "A" (Splits.mk none none none)]
      "r1" .mile1 =
      ([Runner.mk "r1" "A" (Splits.mk none none none)], some .timerNotRunning) ∧
    (findRunner (recordCheckpoint true 5
        [Runner.mk "r1" "A" (Splits.mk none none none)] "r1" .mile1).1
        "r1").bind (fun r => r.splits.get .mile1) = some 5 :=
  ⟨(recordCheckpoint_spec false 7
      [Runner.mk "r1" "A" (Splits.mk none none none)] "r1" .mile1).2.1 rfl,
   ((recordCheckpoint_spec true 5
      [Runner.mk "r1" "A" (Splits.mk none none none)] "r1" .mile1).2.2.2.2.2
      (by decide)).1 (by decide)⟩

/-! ## Participant name validation theorems -/

/-- The claim's wording of the allowed character class: letters, digits,
spaces, hyphens, apostrophes, periods.  Comparison definition for C9; the
code's regex uses the JavaScript whitespace class `\s` where the claim says
"spaces". -/
def claimedNameChar (c : Char) : Bool :=
  (c ≥ 'a' ∧ c ≤ 'z') ∨ (c ≥ 'A' ∧ c ≤ 'Z') ∨ (c ≥ '0' ∧ c ≤ '9') ∨
  c = ' ' ∨ c = '-' ∨ c = Char.ofNat 39 ∨ c = '.'

/-- C9 (counterexample): the name `"a\tb"` contains a tab, which is outside
the claimed class (letters, digits, spaces, hyphens, apostrophes, periods),
yet the validator accepts it (the regex `\s` matches any whitespace) and the
runner is appended. -/
theorem addRunner_charclass_counterexample :
    validateRunnerName [] "a\tb" = none ∧
    (submitRunner [] "a\tb" "id1").2 = none ∧
    (submitRunner [] "a\tb" "id1").1 =
      [Runner.mk "id1" "a\tb" (Splits.mk none none none)] ∧
    ("a\tb".toList.all claimedNameChar) = false := by
  decide

/-- C9 (amended): a name is accepted iff, after trimming, it is non-empty,
between 2 and 50 characters, composed solely of letters, digits, whitespace
characters, hyphens, apostrophes and periods, and not a case-insensitive
duplicate of an existing participant's name; each first-failing condition
yields its validation error; on any violation the roster is returned
unchanged; on success the trimmed name is appended with the fresh id; and
adding "Jane Smith" then "jane smith" rejects the second as a duplicate
with the roster still holding exactly one entry. -/
theorem validateRunnerName_spec (runners : List Runner) (name : String)
    (freshId : String) :
    (validateRunnerName runners name = none ↔
      (jsTrim name ≠ "" ∧ 2 ≤ (jsTrim name).length ∧ (jsTrim name).length ≤ 50 ∧
       (jsTrim name).toList.all allowedNameChar = true ∧
       ∀ r ∈ runners, jsLower r.name ≠ jsLower (jsTrim name))) ∧
    (jsTrim name = "" → validateRunnerName runners name = some .emptyName) ∧
    (jsTrim name ≠ "" → (jsTrim name).length < 2 →
      validateRunnerName runners name = some .tooShort) ∧
    (jsTrim name ≠ "" → 2 ≤ (jsTrim name).length → 50 < (jsTrim name).length →
      validateRunnerName runners name = some .tooLong) ∧
    (jsTrim name ≠ "" → 2 ≤ (jsTrim name).length → (jsTrim name).length ≤ 50 →
      (jsTrim name).toList.all allowedNameChar = false →
      validateRunnerName runners name = some .invalidChars) ∧
    (jsTrim name ≠ "" → 2 ≤ (jsTrim name).length → (jsTrim name).length ≤ 50 →
      (jsTrim name).toList.all allowedNameChar = true →
      (∃ r ∈ runners, jsLower r.name = jsLower (jsTrim name)) →
      validateRunnerName runners name = some .duplicateName) ∧
    (∀ e, validateRunnerName runners name = some e →
      submitRunner runners name freshId = (runners, some e)) ∧
    (validateRunnerName runners name = none →
      submitRunner runners name freshId =
        (runners ++ [Runner.mk freshId (jsTrim name) (Splits.mk none none none)],
         none)) ∧
    ((submitRunner [] "Jane Smith" "id1").2 = none ∧
     (submitRunner [] "Jane Smith" "id1").1.length = 1 ∧
     submitRunner (submitRunner [] "Jane Smith" "id1").1 "jane smith" "id2" =
       ((submitRunner [] "Jane Smith" "id1").1, some .duplicateName)) := by
  refine ⟨?_, ?_, ?_, ?_, ?_, ?_, ?_, ?_, by decide, by decide, by decide⟩
  · simp only [validateRunnerName]
    by_cases h1 : jsTrim name = ""
    · rw [if_pos h1]
      exact iff_of_false (by simp) (by rintro ⟨a, -⟩; exact a h1)
    · rw [if_neg h1]
      by_cases h2 : (jsTrim name).length < 2
      · rw [if_pos h2]
        exact iff_of_false (by simp) (by rintro ⟨-, b, -⟩; omega)
      · rw [if_neg h2]
        by_cases h3 : (jsTrim name).length > 50
        · rw [if_pos h3]
          exact iff_of_false (by simp) (by rintro ⟨-, -, c, -⟩; omega)
        · rw [if_neg h3]
          by_cases h4 : (jsTrim name).toList.all allowedNameChar = true
          · rw [if_neg (not_not_intro h4)]
            by_cases h5 : (runners.any fun r =>
                decide (jsLower r.name = jsLower (jsTrim name))) = true
            · rw [if_pos h5]
              refine iff_of_false (by simp) ?_
              rintro ⟨-, -, -, -, e⟩
              simp only [List.any_eq_true, decide_eq_true_eq] at h5
              obtain ⟨r, hr, heq⟩ := h5
              exact e r hr heq
            · rw [if_neg h5]
              refine iff_of_true rfl ⟨h1, by omega, by omega, h4, ?_⟩
              intro r hr heq
              exact h5 (by
                simp only [List.any_eq_true, decide_eq_true_eq]
                exact ⟨r, hr, heq⟩)
          · rw [if_pos h4]
            exact iff_of_false (by simp) (by rintro ⟨-, -, -, d, -⟩; exact h4 d)
  · intro h1
    simp [validateRunnerName, h1]
  · intro h1 h2
    simp only [validateRunnerName]
    rw [if_neg h1, if_pos h2]
  · intro h1 h2 h3
    simp only [validateRunnerName]
    rw [if_neg h1, if_neg (by omega), if_pos (by omega)]
  · intro h1 h2 h3 h4
    simp only [validateRunnerName]
    rw [if_neg h1, if_neg (by omega), if_neg (by omega),
      if_pos (by rw [h4]; simp)]
  · intro h1 h2 h3 h4 h5
    simp only [validateRunnerName]
    rw [if_neg h1, if_neg (by omega), if_neg (by omega),
      if_neg (not_not_intro h4),
      if_pos (by simp only [List.any_eq_true, decide_eq_true_eq]; exact h5)]
  · intro e he
    simp [submitRunner, he]
  · intro h
    simp [submitRunner, h]

/-- Closed witness for `validateRunnerName_spec`. -/
theorem validateRunnerName_spec_witness :
    validateRunnerName [] "" = some .emptyName ∧
    submitRunner [] "ab" "id9" =
      ([Runner.mk "id9" "ab" (Splits.mk none none none)], none) :=
  ⟨(validateRunnerName_spec [] "" "idX").2.1 (by decide),
   by
    have h := (validateRunnerName_spec [] "ab" "id9").2.2.2.2.2.2.2.1 (by decide)
    simpa using h⟩

/-! ## Session codec theorems -/

/-- Reading back an encoded splits object restores the splits. -/
theorem decodeSplits_encodeSplits (s : Splits) :
    decodeSplits (encodeSplits s) = s := by
  rcases s with ⟨m1, m2, m3⟩
  cases m1 <;> cases m2 <;> cases m3 <;> rfl

/-- An encoded splits object passes the splits key loop. -/
theorem validSplits_encodeSplits (s : Splits) :
    validSplits (encodeSplits s) = true := by
  rcases s with ⟨m1, m2, m3⟩
  cases m1 <;> cases m2 <;> cases m3 <;> rfl

/-- Reading back an encoded runner restores the runner. -/
theorem decodeRunner_encodeRunner (r : Runner) :
    decodeRunner (encodeRunner r) = some r := by
  have h : decodeRunner (encodeRunner r) =
      some (Runner.mk r.id r.name (decodeSplits (encodeSplits r.splits))) := rfl
  rw [h, decodeSplits_encodeSplits]

/-- An encoded runner passes `isValidRunner`. -/
theorem isValidRunner_encodeRunner (r : Runner) :
    isValidRunner (encodeRunner r) = true := by
  have h : isValidRunner (encodeRunner r) =
      (true && true && validSplits (encodeSplits r.splits)) := rfl
  rw [h, validSplits_encodeSplits]
  rfl

/-- Reading back an encoded timer state restores it. -/
theorem decodeTimer_encodeTimer (t : TimerState) :
    decodeTimer (encodeTimer t) = some t := by
  rcases t with ⟨b, st, e⟩
  cases st <;> rfl

/-- Reading back a list of encoded runners restores the list. -/
theorem decodeRunners_encodeRunner (rs : List Runner) :
    decodeRunners (rs.map encodeRunner) = some rs := by
  induction rs with
  | nil => rfl
  | cons r rs ih =>
      rw [List.map_cons]
      simp only [decodeRunners]
      rw [decodeRunner_encodeRunner r, ih]
      rfl

/-- Every encoded runner in a list passes validation. -/
theorem all_isValidRunner_encodeRunner (rs : List Runner) :
    (rs.map encodeRunner).all isValidRunner = true := by
  induction rs with
  | nil => rfl
  | cons r rs ih =>
      simp [isValidRunner_encodeRunner r, ih]

/-- Reading back an encoded session restores it. -/
theorem decodeSession_encodeSession (rs : List Runner) (t : TimerState)
    (now : Int) :
    decodeSession (encodeSession rs t now) = some (SessionState.mk rs t now) := by
  have h : decodeSession (encodeSession rs t now) =
      (decodeRunners (rs.map encodeRunner)).bind (fun runners =>
        (decodeTimer (encodeTimer t)).bind (fun tt =>
          some (SessionState.mk runners tt now))) := rfl
  rw [h, decodeRunners_encodeRunner, decodeTimer_encodeTimer]
  rfl

/-- An encoded session passes `isValidSessionState`. -/
theorem isValidSessionState_encodeSession (rs : List Runner) (t : TimerState)
    (now : Int) :
    isValidSessionState (encodeSession rs t now) = true := by
  rcases t with ⟨b, st, e⟩
  cases st with
  | none =>
      have h : isValidSessionState
            (encodeSession rs (TimerState.mk b none e) now) =
          ((rs.map encodeRunner).all isValidRunner && true && true) := rfl
      rw [h, all_isValidRunner_encodeRunner]
      rfl
  | some n =>
      have h : isValidSessionState
            (encodeSession rs (TimerState.mk b (some n) e) now) =
          ((rs.map encodeRunner).all isValidRunner && true && true) := rfl
      rw [h, all_isValidRunner_encodeRunner]
      rfl

/-- C4: for every participant list, clock state and timestamp, if
serialization succeeds (the stored value fits the size cap), loading the
stored value back validates and reproduces the participants and the clock
exactly, with `lastSaved` the added timestamp. -/
theorem session_roundtrip (rs : List Runner) (t : TimerState) (now : Int)
    (j : Json) (h : saveSessionState rs t now = some j) :
    loadSessionState j = some (SessionState.mk rs t now) := by
  simp only [saveSessionState] at h
  split at h
  · exact absurd h (by simp)
  · have hj : encodeSession rs t now = j := by injection h
    subst hj
    simp only [loadSessionState, isValidSessionState_encodeSession, if_true]
    exact decodeSession_encodeSession rs t now

set_option maxRecDepth 8192 in
/-- Closed witness for `session_roundtrip`. -/
theorem session_roundtrip_witness :
    saveSessionState [Runner.mk "r1" "Jane" (Splits.mk (some 65000) none none)]
        (TimerState.mk true (some 100) 65500) 70000 =
      some (encodeSession [Runner.mk "r1" "Jane" (Splits.mk (some 65000) none none)]
        (TimerState.mk true (some 100) 65500) 70000) ∧
    loadSessionState (encodeSession
        [Runner.mk "r1" "Jane" (Splits.mk (some 65000) none none)]
        (TimerState.mk true (some 100) 65500) 70000) =
      some (SessionState.mk [Runner.mk "r1" "Jane" (Splits.mk (some 65000) none none)]
        (TimerState.mk true (some 100) 65500) 70000) :=
  ⟨rfl, session_roundtrip _ _ 70000 _ rfl⟩

/-! ## Deserializer schema (C5)

`SpecSplitsOk`, `SpecRunnerOk` and `SpecSessionOk` transcribe the spec's
schema wording for comparison with the code's validator, with the two
deviations the code forces: a runner `name` may be any string (the code
never checks emptiness), and the checkpoints map may also be an empty JSON
array (whose key loop validates vacuously). -/

/-- The spec's checkpoints-map condition: keys ⊆ mile1/mile2/mile3 with
numeric values (or absent); amended to also admit an empty array. -/
def SpecSplitsOk (sp : Json) : Prop :=
  (∃ fs, sp = Json.obj fs ∧ ∀ p ∈ fs,
     (p.1 = "mile1" ∨ p.1 = "mile2" ∨ p.1 = "mile3") ∧ ∃ n, p.2 = Json.num n) ∨
  sp = Json.arr []

/-- The spec's participant-element condition: string `id`, string `name`
(amended: possibly empty) and a valid checkpoints map. -/
def SpecRunnerOk (j : Json) : Prop :=
  (∃ s, j.getField "id" = some (Json.str s)) ∧
  (∃ s, j.getField "name" = some (Json.str s)) ∧
  (∃ sp, j.getField "splits" = some sp ∧ SpecSplitsOk sp)

/-- The spec's whole-snapshot schema: a participants sequence of valid
elements, a clock with boolean `running`, numeric `elapsedMs` and
null-or-numeric `startEpochMs`, and a numeric `savedAtEpochMs`. -/
def SpecSessionOk (j : Json) : Prop :=
  (∃ rs, j.getField "runners" = some (Json.arr rs) ∧ ∀ r ∈ rs, SpecRunnerOk r) ∧
  (∃ ts, j.getField "timerState" = some ts ∧
    (∃ b, ts.getField "isRunning" = some (Json.bool b)) ∧
    (∃ n, ts.getField "elapsedTime" = some (Json.num n)) ∧
    (ts.getField "startTime" = some Json.null ∨
     ∃ n, ts.getField "startTime" = some (Json.num n))) ∧
  (∃ n, j.getField "lastSaved" = some (Json.num n))

/-- `Json.isNum` characterisation. -/
theorem Json.isNum_iff (j : Json) : j.isNum = true ↔ ∃ n, j = Json.num n := by
  cases j <;> simp [Json.isNum]

/-- `isStringVal` characterisation. -/
theorem isStringVal_iff (o : Option Json) :
    isStringVal o = true ↔ ∃ s, o = some (Json.str s) := by
  rcases o with _ | j
  · simp [isStringVal]
  · cases j <;> simp [isStringVal]

/-- `isNumberVal` characterisation. -/
theorem isNumberVal_iff (o : Option Json) :
    isNumberVal o = true ↔ ∃ n, o = some (Json.num n) := by
  rcases o with _ | j
  · simp [isNumberVal]
  · cases j <;> simp [isNumberVal]

/-- `isBoolVal` characterisation. -/
theorem isBoolVal_iff (o : Option Json) :
    isBoolVal o = true ↔ ∃ b, o = some (Json.bool b) := by
  rcases o with _ | j
  · simp [isBoolVal]
  · cases j <;> simp [isBoolVal]

/-- `isNullOrNumberVal` characterisation. -/
theorem isNullOrNumberVal_iff (o : Option Json) :
    isNullOrNumberVal o = true ↔
      (o = some Json.null ∨ ∃ n, o = some (Json.num n)) := by
  rcases o with _ | j
  · simp [isNullOrNumberVal]
  · cases j <;> simp [isNullOrNumberVal]

/-- The code's splits loop decides exactly the spec's checkpoints-map
condition (with the empty-array amendment). -/
theorem validSplits_iff (sp : Json) : validSplits sp = true ↔ SpecSplitsOk sp := by
  cases sp with
  | obj fs =>
      simp [validSplits, SpecSplitsOk, List.all_eq_true, Json.isNum_iff]
  | arr es => cases es <;> simp [validSplits, SpecSplitsOk]
  | null => simp [validSplits, SpecSplitsOk]
  | bool b => simp [validSplits, SpecSplitsOk]
  | num n => simp [validSplits, SpecSplitsOk]
  | str s => simp [validSplits, SpecSplitsOk]

/-- `splitsVal` characterisation. -/
theorem splitsVal_iff (o : Option Json) :
    splitsVal o = true ↔ ∃ sp, o = some sp ∧ SpecSplitsOk sp := by
  rcases o with _ | s
  · simp [splitsVal]
  · simp [splitsVal, validSplits_iff]

/-- The code's runner check decides exactly the spec's participant-element
condition (with the two amendments). -/
theorem isValidRunner_iff (j : Json) :
    isValidRunner j = true ↔ SpecRunnerOk j := by
  cases j with
  | obj fs =>
      show (isStringVal ((Json.obj fs).getField "id") &&
            isStringVal ((Json.obj fs).getField "name") &&
            splitsVal ((Json.obj fs).getField "splits")) = true ↔ _
      simp only [Bool.and_eq_true, isStringVal_iff, splitsVal_iff, and_assoc]
      exact Iff.rfl
  | null => simp [isValidRunner, SpecRunnerOk, Json.getField]
  | bool b => simp [isValidRunner, SpecRunnerOk, Json.getField]
  | num n => simp [isValidRunner, SpecRunnerOk, Json.getField]
  | str s => simp [isValidRunner, SpecRunnerOk, Json.getField]
  | arr es => simp [isValidRunner, SpecRunnerOk, Json.getField]

/-- `runnersVal` characterisation. -/
theorem runnersVal_iff (o : Option Json) :
    runnersVal o = true ↔
      ∃ rs, o = some (Json.arr rs) ∧ ∀ r ∈ rs, SpecRunnerOk r := by
  rcases o with _ | jr
  · simp [runnersVal]
  · cases jr <;> simp [runnersVal, List.all_eq_true, isValidRunner_iff]

/-- `timerStateVal` characterisation. -/
theorem timerStateVal_iff (o : Option Json) :
    timerStateVal o = true ↔
      ∃ ts, o = some ts ∧
        (∃ b, ts.getField "isRunning" = some (Json.bool b)) ∧
        (∃ n, ts.getField "elapsedTime" = some (Json.num n)) ∧
        (ts.getField "startTime" = some Json.null ∨
         ∃ n, ts.getField "startTime" = some (Json.num n)) := by
  rcases o with _ | ts
  · simp [timerStateVal]
  · simp [timerStateVal, Bool.and_eq_true, isBoolVal_iff, isNumberVal_iff,
      isNullOrNumberVal_iff, and_assoc]

/-- The code's session check decides exactly the spec's snapshot schema
(with the two amendments). -/
theorem isValidSessionState_iff (j : Json) :
    isValidSessionState j = true ↔ SpecSessionOk j := by
  cases j with
  | obj fs =>
      show (runnersVal ((Json.obj fs).getField "runners") &&
            timerStateVal ((Json.obj fs).getField "timerState") &&
            isNumberVal ((Json.obj fs).getField "lastSaved")) = true ↔ _
      simp only [Bool.and_eq_true, runnersVal_iff, timerStateVal_iff,
        isNumberVal_iff, and_assoc]
      exact Iff.rfl
  | null => simp [isValidSessionState, SpecSessionOk, Json.getField]
  | bool b => simp [isValidSessionState, SpecSessionOk, Json.getField]
  | num n => simp [isValidSessionState, SpecSessionOk, Json.getField]
  | str s => simp [isValidSessionState, SpecSessionOk, Json.getField]
  | arr es => simp [isValidSessionState, SpecSessionOk, Json.getField]

/-- A valid runner object reads back successfully. -/
theorem decodeRunner_isSome (r : Json) (h : isValidRunner r = true) :
    (decodeRunner r).isSome = true := by
  obtain ⟨⟨i, hi⟩, ⟨n, hn⟩, sp, hsp, -⟩ := (isValidRunner_iff r).mp h
  simp [decodeRunner, hi, hn, hsp]

/-- A list of valid runner objects reads back successfully. -/
theorem decodeRunners_isSome (rs : List Json)
    (h : ∀ r ∈ rs, (decodeRunner r).isSome = true) :
    (decodeRunners rs).isSome = true := by
  induction rs with
  | nil => rfl
  | cons r rs ih =>
      simp only [decodeRunners]
      obtain ⟨x, hx⟩ := Option.isSome_iff_exists.mp (h r (by simp))
      obtain ⟨xs, hxs⟩ := Option.isSome_iff_exists.mp
        (ih fun r hr => h r (by simp [hr]))
      simp [hx, hxs]

/-- A valid timer object reads back successfully. -/
theorem decodeTimer_isSome (ts : Json)
    (hb : ∃ b, ts.getField "isRunning" = some (Json.bool b))
    (hn : ∃ n, ts.getField "elapsedTime" = some (Json.num n))
    (hst : ts.getField "startTime" = some Json.null ∨
      ∃ n, ts.getField "startTime" = some (Json.num n)) :
    (decodeTimer ts).isSome = true := by
  obtain ⟨b, hb⟩ := hb
  obtain ⟨n, hn⟩ := hn
  rcases hst with hst | ⟨m, hst⟩ <;> simp [decodeTimer, hb, hn, hst]

/-- C5 (amended): the deserializer returns a snapshot exactly when the raw
value satisfies the schema — every participant element has a string `id`, a
string `name` (emptiness is not checked, unlike the claim's wording), and a
checkpoints map (JSON object, or empty array) whose keys are a subset of
the three checkpoint keys with numeric values; the clock and `lastSaved`
fields are well-typed.  On every input failing any condition it returns
null, never a partial restore. -/
theorem deserialize_schema_iff (j : Json) :
    loadSessionState j ≠ none ↔ SpecSessionOk j := by
  constructor
  · intro h
    by_cases hv : isValidSessionState j = true
    · exact (isValidSessionState_iff j).mp hv
    · exact absurd (by simp [loadSessionState, hv]) h
  · intro h
    have hv : isValidSessionState j = true := (isValidSessionState_iff j).mpr h
    simp only [loadSessionState, hv, if_true]
    obtain ⟨⟨rs, hr, hall⟩, ⟨ts, ht, hb, hn, hst⟩, ⟨ls, hls⟩⟩ := h
    simp only [decodeSession, hr, ht, hls]
    obtain ⟨xs, hxs⟩ := Option.isSome_iff_exists.mp
      (decodeRunners_isSome rs fun r hrr =>
        decodeRunner_isSome r ((isValidRunner_iff r).mpr (hall r hrr)))
    obtain ⟨t, htt⟩ := Option.isSome_iff_exists.mp (decodeTimer_isSome ts hb hn hst)
    simp [hxs, htt]

/-- C5 (counterexample): a stored session whose only runner has the empty
string as `name` passes validation and is fully restored, although the
claim's schema requires a non-empty name and a null result. -/
theorem deserialize_empty_name_counterexample :
    loadSessionState (encodeSession
        [Runner.mk "r1" "" (Splits.mk none none none)]
        (TimerState.mk false none 0) 7) =
      some (SessionState.mk [Runner.mk "r1" "" (Splits.mk none none none)]
        (TimerState.mk false none 0) 7) ∧
    (Runner.mk "r1" "" (Splits.mk none none none)).name = "" := by
  constructor
  · decide
  · rfl

/-! ## Staleness (C6) -/

/-- C6: `isSessionRecent` returns true exactly when `now - lastSaved` is at
most 24 hours, and the load path never restores a stored snapshot that is
more than 24 hours old — it erases the stored slot instead. -/
theorem isSessionRecent_spec :
    (∀ (s : SessionState) (now : Int),
      isSessionRecent s now = true ↔ now - s.lastSaved ≤ 24 * 60 * 60 * 1000) ∧
    (∀ (j : Json) (s : SessionState) (now : Int),
      loadSessionState j = some s → 24 * 60 * 60 * 1000 < now - s.lastSaved →
      sessionRestoreEffect (some j) now = (none, none)) := by
  constructor
  · intro s now
    simp [isSessionRecent]
  · intro j s now hload hstale
    have h := hload
    unfold loadSessionState at h
    by_cases hv : isValidSessionState j = true
    · rw [if_pos hv] at h
      have hrec : isSessionRecent s now = false := by
        simp only [isSessionRecent, decide_eq_false_iff_not]
        omega
      simp only [sessionRestoreEffect, storeLoad]
      rw [if_pos hv, h]
      simp [hrec]
    · rw [if_neg hv] at h
      exact absurd h (by simp)

/-- Closed witness for `isSessionRecent_spec`. -/
theorem isSessionRecent_spec_witness :
    sessionRestoreEffect
      (some (encodeSession [] (TimerState.mk false none 0) 0)) 100000000 =
      (none, none) :=
  isSessionRecent_spec.2 (encodeSession [] (TimerState.mk false none 0) 0)
    (SessionState.mk [] (TimerState.mk false none 0) 0) 100000000
    (by decide) (by decide)

/-! ## Tick monotonicity (C7) -/

/-- An external clock-engine event with the wall-clock value it reads. -/
inductive TimerEvent where
  | start (now : Int)
  | stop (now : Int)
  | tick (now : Int)
deriving DecidableEq, Repr

/-- The wall-clock value an event reads. -/
def TimerEvent.time : TimerEvent → Int
  | .start n => n
  | .stop n => n
  | .tick n => n

/-- Dispatch one event to the engine. -/
def stepEvent (test : Bool) (s : EngineState) :
    TimerEvent → EngineState × Option TimerError
  | .start n => startTimer test n s
  | .stop n => stopTimer test n s
  | .tick n => tick n s

/-- Run a sequence of events. -/
def runEvents (test : Bool) (s : EngineState) : List TimerEvent → EngineState
  | [] => s
  | e :: es => runEvents test (stepEvent test s e).1 es

/-- A clock value is consistent with a wall clock that has reached `t`:
elapsed time is non-negative and, while running, the start epoch accounts
for at most the elapsed time already shown. -/
def Synced (tm : TimerState) (t : Int) : Prop :=
  0 ≤ tm.elapsedTime ∧
  (tm.isRunning = true → ∀ st, tm.startTime = some st →
    st + tm.elapsedTime ≤ t)

/-- All event times are at least `t` and non-decreasing. -/
def Chronological : Int → List TimerEvent → Prop
  | _, [] => True
  | t, e :: es => t ≤ e.time ∧ Chronological e.time es

/-- `Synced` is monotone in the wall-clock bound. -/
theorem Synced.mono {tm : TimerState} {t t' : Int} (h : Synced tm t)
    (htt : t ≤ t') : Synced tm t' :=
  ⟨h.1, fun hr st hst => le_trans (h.2 hr st hst) htt⟩

/-- One event keeps the engine synced, never decreases the displayed
elapsed time, and leaves it unchanged while stopped. -/
theorem stepEvent_mono (test : Bool) (s : EngineState) (e : TimerEvent)
    (T : Int) (hs : Synced s.timer T) (ht : T ≤ e.time) :
    Synced (stepEvent test s e).1.timer e.time ∧
    s.timer.elapsedTime ≤ (stepEvent test s e).1.timer.elapsedTime ∧
    (s.timer.isRunning = false →
      (stepEvent test s e).1.timer.elapsedTime = s.timer.elapsedTime) := by
  have h0 : 0 ≤ s.timer.elapsedTime := hs.1
  cases e with
  | start n =>
      rcases startTimer_timer_shape test n s with h | h <;>
        simp only [stepEvent, TimerEvent.time] at * <;> rw [h]
      · exact ⟨hs.mono ht, le_refl _, fun _ => rfl⟩
      · refine ⟨⟨h0, ?_⟩, le_refl _, fun _ => rfl⟩
        intro _ st hst
        dsimp only at hst ⊢
        simp only [Option.some.injEq] at hst
        omega
  | stop n =>
      rcases stopTimer_timer_shape test n s with h | h <;>
        simp only [stepEvent, TimerEvent.time] at * <;> rw [h]
      · exact ⟨hs.mono ht, le_refl _, fun _ => rfl⟩
      · refine ⟨⟨h0, ?_⟩, le_refl _, fun _ => rfl⟩
        intro hr
        simp at hr
  | tick n =>
      simp only [stepEvent, TimerEvent.time] at *
      by_cases hc : s.timer.isRunning = true ∧ truthyNum s.timer.startTime = true
      · obtain ⟨hrun, htru⟩ := hc
        match hst : s.timer.startTime with
        | none => rw [hst] at htru; exact absurd htru (by simp [truthyNum])
        | some st =>
            have hbound : st + s.timer.elapsedTime ≤ T := hs.2 hrun st hst
            have hstep : (tick n s).1.timer =
                { s.timer with elapsedTime := n - st } := by
              simp only [tick]
              rw [if_pos ⟨hrun, htru⟩]
              simp only [hst]
              rw [if_neg (by omega)]
            rw [hstep]
            refine ⟨⟨by dsimp only; omega, ?_⟩, by dsimp only; omega, ?_⟩
            · intro _ st' hst'
              dsimp only at hst' ⊢
              rw [hst] at hst'
              simp only [Option.some.injEq] at hst'
              omega
            · intro hr
              rw [hrun] at hr
              cases hr
      · have hstep : (tick n s).1 = s := by
          simp only [tick]
          rw [if_neg hc]
        rw [hstep]
        exact ⟨hs.mono ht, le_refl _, fun _ => rfl⟩

/-- C7 (counterexample): with only the Tick inputs required non-decreasing
(11000 then 12500), a stop/restart across a backwards wall-clock step lets
a Tick lower `elapsedTime` from 1000 to 500 while the clock is Running,
with no error reported. -/
theorem elapsed_decrease_counterexample :
    (11000 : Int) ≤ 12500 ∧
    (runEvents false initialEngine
      [.start 10000, .tick 11000, .stop 11000, .start 13000]).timer.isRunning
        = true ∧
    (runEvents false initialEngine
      [.start 10000, .tick 11000, .stop 11000, .start 13000]).timer.elapsedTime
        = 1000 ∧
    (runEvents false initialEngine
      [.start 10000, .tick 11000, .stop 11000, .start 13000, .tick 12500]).timer.isRunning
        = true ∧
    (runEvents false initialEngine
      [.start 10000, .tick 11000, .stop 11000, .start 13000, .tick 12500]).timer.elapsedTime
        = 500 ∧
    (tick 12500 (runEvents false initialEngine
      [.start 10000, .tick 11000, .stop 11000, .start 13000])).2 = none := by
  decide

/-- C7 (amended): when *all* event times are non-decreasing (not just the
Tick times), every event preserves syncedness, `elapsedMs` never decreases
(in particular it is non-decreasing while Running) and stays unchanged
while Stopped, over single steps and over whole event sequences; moreover a
Tick never changes the running state or the start epoch, and a Tick whose
computed elapsed time is negative reports the clock-skew error and leaves
the state unchanged. -/
theorem elapsed_monotone_spec (test : Bool) :
    (∀ (s : EngineState) (T : Int) (e : TimerEvent), Synced s.timer T →
      T ≤ e.time →
      Synced (stepEvent test s e).1.timer e.time ∧
      s.timer.elapsedTime ≤ (stepEvent test s e).1.timer.elapsedTime ∧
      (s.timer.isRunning = false →
        (stepEvent test s e).1.timer.elapsedTime = s.timer.elapsedTime)) ∧
    (∀ (es : List TimerEvent) (s : EngineState) (T : Int), Synced s.timer T →
      Chronological T es →
      s.timer.elapsedTime ≤ (runEvents test s es).timer.elapsedTime) ∧
    (∀ (s : EngineState) (now : Int),
      (tick now s).1.timer.isRunning = s.timer.isRunning ∧
      (tick now s).1.timer.startTime = s.timer.startTime) ∧
    (∀ (s : EngineState) (now st : Int), s.timer.isRunning = true →
      s.timer.startTime = some st → st ≠ 0 → now - st < 0 →
      tick now s = (s, some .clockSkew)) := by
  refine ⟨fun s T e => stepEvent_mono test s e T, ?_, ?_, ?_⟩
  · intro es
    induction es with
    | nil =>
        intro s T _ _
        exact le_refl _
    | cons e es ih =>
        rintro s T hs ⟨ht, hch⟩
        have hstep := stepEvent_mono test s e T hs ht
        calc s.timer.elapsedTime
            ≤ (stepEvent test s e).1.timer.elapsedTime := hstep.2.1
          _ ≤ (runEvents test (stepEvent test s e).1 es).timer.elapsedTime :=
              ih (stepEvent test s e).1 e.time hstep.1 hch
  · intro s now
    rcases tick_timer_shape now s with h | ⟨st, hst, h⟩ <;> rw [h] <;>
      exact ⟨rfl, rfl⟩
  · intro s now st hrun hst hstz hneg
    simp only [tick]
    rw [if_pos ⟨hrun, by rw [hst]; simp [truthyNum, hstz]⟩]
    simp only [hst]
    rw [if_pos hneg]

/-- Closed witness for `elapsed_monotone_spec`. -/
theorem elapsed_monotone_spec_witness :
    initialEngine.timer.elapsedTime ≤
      (runEvents false initialEngine [.start 10000, .tick 11000]).timer.elapsedTime ∧
    tick 40 (EngineState.mk (TimerState.mk true (some 100) 0) 0) =
      (EngineState.mk (TimerState.mk true (some 100) 0) 0, some .clockSkew) :=
  ⟨(elapsed_monotone_spec false).2.1 [.start 10000, .tick 11000] initialEngine 0
      ⟨le_refl 0, fun hr => absurd hr (by decide)⟩
      ⟨by decide, by decide, trivial⟩,
   (elapsed_monotone_spec false).2.2.2
      (EngineState.mk (TimerState.mk true (some 100) 0) 0) 40 100
      rfl rfl (by decide) (by decide)⟩

end MileSplits
